import Mathlib

/-!
# AutoPay-AI delegation lifecycle — shallow embedding

This file embeds the delegation lifecycle of the AutoPay-AI repository
(`src/lib/delegation-service.ts`, `src/lib/automation.ts`,
`src/app/api/automations/confirm/route.ts`) in Lean 4 and proves the
specified properties about it.

Modelling conventions:
* JavaScript strings are `String`; a missing (`null`/`undefined`/empty)
  string argument is modelled as `""` or as `Option.none` where the source
  distinguishes the two.
* Every call the service makes into the outside world (wallet bytecode
  lookup, the typed-data signing probe, the real delegation signature and
  its 30-second timeout, the per-chain DelegationManager lookup) is a field
  of an explicit environment record `ChainEnv`, so the service functions
  are pure functions of the environment.
* Each call to `Math.random().toString(16)` is modelled as an explicit
  input string (one per call site), and the JavaScript `substring`/`padEnd`
  manipulations applied to it are embedded literally.
* Thrown exceptions are `Except.error`; `try/catch` blocks become matches
  on the `Except` value.
* The stages a run actually invokes are recorded in an event trace
  (`StageEv`), returned next to the result, so fail-fast and
  single-attempt properties are statements about the trace.
-/

/-- Wallet classification tag carried by a `DelegationResult`
(`'eoa' | 'scw' | 'unknown'` in `delegation-service.ts`). -/
inductive WalletType where
  | eoa
  | scw
  | unknown
deriving DecidableEq, Repr

/-- A caveat of a delegation (enforcer reference plus opaque terms).
The repository only ever builds delegations with an empty caveat list. -/
structure Caveat where
  enforcer : String
  terms : String
deriving DecidableEq, Repr

/-- The delegation record of the external delegation SDK as used by
`delegation-service.ts`: delegate, delegator, authority, caveats, salt and
signature fields, all hex strings. -/
structure Delegation where
  delegate : String
  delegator : String
  authority : String
  caveats : List Caveat
  salt : String
  signature : String
deriving DecidableEq, Repr

/-- Injective flat encoding of one caveat, used by the content hash. -/
def encodeCaveat (c : Caveat) : List String :=
  [c.enforcer, c.terms]

/-- Modelled from the spec: `getDelegationHashOffchain` is provided by the
external delegation SDK (`@metamask/delegation-utils`), whose source is not
part of this repository.  The spec describes it as a deterministic content
hash of the delegation's fields (delegate, delegator, authority, caveats,
salt, signature) used as the delegation's unique reference, so it is
modelled as a collision-free encoding of exactly those fields. -/
def getDelegationHashOffchain (d : Delegation) : List String :=
  [d.delegate, d.delegator, d.authority, d.salt, d.signature]
    ++ (d.caveats.map encodeCaveat).flatten

/-- The delegation identifier type produced by the content hash. -/
abbrev DelegationId := List String

/-- The uniform result record every stage of the pipeline returns
(`DelegationResult` in `delegation-service.ts`).  Optional fields that a
given construction site does not mention stay `none`, matching the
TypeScript object literals. -/
structure DelegationResult where
  success : Bool
  transactionHash : Option String := none
  delegationId : Option DelegationId := none
  error : Option String := none
  delegation : Option Delegation := none
  chainId : Option Nat := none
  isSimulated : Option Bool := none
  usedWalletConnect : Option Bool := none
  walletType : Option WalletType := none
  userMessage : Option String := none
deriving DecidableEq, Repr

/-- The wallet client handle: the only field the delegation flow reads is
`account` (its address, when present). -/
structure WalletClient where
  account : Option String
deriving DecidableEq, Repr

/-- Outcome of the real `signDelegation` call raced against the 30-second
timeout: a signature, a thrown error, or the timeout rejection. -/
inductive SignOutcome where
  | ok (sig : String)
  | err (msg : String)
  | timeout
deriving DecidableEq, Repr

/-- Environment of external observations for one run of the pipeline:
the bytecode lookup at the user address (`none` models `undefined`,
`bytecodeThrows` models the lookup throwing), the result of the typed-data
signing probe, the per-chain `DelegationManager` lookup, and the outcome
of the real signing attempt. -/
structure ChainEnv where
  bytecode : Option String
  bytecodeThrows : Bool
  signProbeOk : Bool
  delegationManager : Option String
  signOutcome : SignOutcome
deriving DecidableEq, Repr

/-- Pipeline stages recorded in the event trace of a run. -/
inductive StageEv where
  | signerCall
  | builderCall
  | realSignAttempt
  | simFallback
  | submitCall
  | storeMutation
deriving DecidableEq, Repr

/-- The fixed supported-chain table of `DelegationService`. -/
def supportedChains : List Nat :=
  [1, 11155111, 5, 137, 80001, 42161, 421613, 10, 420, 8453, 84531]

/-- `DelegationService.isChainSupported`. -/
def isChainSupported (chainId : Nat) : Bool :=
  supportedChains.contains chainId

/-- `DelegationService.isSmartContractWallet`: non-empty bytecode at the
address means a smart-contract wallet; any lookup fault defaults to
`false` (EOA). -/
def isSmartContractWallet (env : ChainEnv) : Bool :=
  if env.bytecodeThrows then false
  else
    match env.bytecode with
    | none => false
    | some code => code != "0x"

/-- `DelegationService.canSignDelegations`: fails when the wallet client
has no account, otherwise reports the typed-data probe outcome. -/
def canSignDelegations (wc : WalletClient) (env : ChainEnv) : Bool :=
  match wc.account with
  | none => false
  | some _ => env.signProbeOk

/-- JavaScript `s.padEnd(64, '0')`. -/
def padEnd64Zeros (s : String) : String :=
  s ++ String.mk (List.replicate (64 - s.length) '0')

/-- The salt expression
`0x + Math.random().toString(16).substring(2, 18).padEnd(64, '0')`,
applied to the raw random string `rand`. -/
def mkSalt (rand : String) : String :=
  "0x" ++ padEnd64Zeros ((rand.drop 2).take 16)

/-- The mock transaction hash expression
`0x + Math.random().toString(16).substring(2, 66)` (note: no padding),
applied to the raw random string `rand`. -/
def mkMockTxHash (rand : String) : String :=
  "0x" ++ (rand.drop 2).take 64

/-- The zero parent-delegation authority (`0x` followed by 64 zeros). -/
def rootAuthority : String :=
  "0x" ++ String.mk (List.replicate 64 '0')

/-- The placeholder signature of simulated delegations
(`0x` followed by 130 zero characters). -/
def placeholderSignature : String :=
  "0x" ++ String.mk (List.replicate 130 '0')

/-- The mock authority used by simulated delegations
(`0x` followed by 64 `f` characters). -/
def mockAuthority : String :=
  "0x" ++ String.mk (List.replicate 64 'f')

/-- Modelled from the spec: `createDelegation` of the external delegation
SDK builds the unsigned delegation record from `to`, `from`,
`parentDelegation` and `caveats`; salt and signature start as placeholder
values (the service overwrites the salt immediately afterwards). -/
def createDelegation (toAddr fromAddr parent : String) (caveats : List Caveat) :
    Delegation :=
  { delegate := toAddr
    delegator := fromAddr
    authority := parent
    caveats := caveats
    salt := "0x"
    signature := "0x" }

/-- `DelegationService.getSimulationMessage` (copy abbreviated; no claim
depends on the exact message text). -/
def getSimulationMessage (isSCW : Bool) (userAddress : String) : String :=
  if isSCW then
    "Smart Contract Wallet Detected: " ++ userAddress.take 8 ++
      "... works in simulation mode only; use an EOA wallet for real automations."
  else
    "Signing Not Supported: wallet cannot produce the required signature; continue with simulation mode."

/-- Attach a `userMessage` to a result (the `{ ...simulated, userMessage }`
spreads in `createSignedDelegation` and `createRealDelegation`). -/
def withUserMessage (r : DelegationResult) (msg : String) : DelegationResult :=
  { r with userMessage := some msg }

/-- `DelegationService.createSimulatedDelegation` (main path; its inner
`catch` branch is unreachable in the model because the content hash is a
total function): builds the mock delegation with the placeholder signature
and a fresh random salt, and derives the identifier with the same
`getDelegationHashOffchain` used for real delegations. -/
def createSimulatedDelegation (userAddress : String) (chainId : Nat)
    (reason : String) (saltRand : String) : DelegationResult :=
  let mockDelegation : Delegation :=
    { delegate := userAddress
      authority := mockAuthority
      delegator := userAddress
      caveats := []
      signature := placeholderSignature
      salt := mkSalt saltRand }
  { success := true
    delegationId := some (getDelegationHashOffchain mockDelegation)
    delegation := some mockDelegation
    chainId := some chainId
    isSimulated := some true
    walletType :=
      some (if reason = "smart_contract_wallet" then WalletType.scw else WalletType.unknown) }

/-- `DelegationService.createRealDelegation`: the real signing flow for EOA
wallets.  `Except.error` models a thrown exception (propagated to the
caller's `catch`); internal degradations return simulated results
directly.  `saltRand` feeds the real delegation's salt, `mockSaltRand`
the salt of any simulated fallback built here. -/
def createRealDelegation (env : ChainEnv) (wc : WalletClient)
    (userAddress : String) (chainId : Nat) (saltRand mockSaltRand : String) :
    Except String DelegationResult × List StageEv :=
  match env.delegationManager with
  | none =>
      (Except.ok (withUserMessage
        (createSimulatedDelegation userAddress chainId "no_delegation_manager" mockSaltRand)
        "Network not configured for delegations. Using simulation mode."),
       [StageEv.simFallback])
  | some _ =>
      let emptyDelegation :=
        { createDelegation userAddress userAddress rootAuthority [] with
            salt := mkSalt saltRand }
      if emptyDelegation.delegate = "" ∨ emptyDelegation.authority = "" then
        (Except.ok (withUserMessage
          (createSimulatedDelegation userAddress chainId "invalid_delegation" mockSaltRand)
          "Invalid delegation structure. Using simulation mode."),
         [StageEv.builderCall, StageEv.simFallback])
      else
        match wc.account with
        | none =>
            (Except.error "Wallet client missing account information",
             [StageEv.builderCall])
        | some _ =>
            match env.signOutcome with
            | SignOutcome.ok sig =>
                let signedDelegation := { emptyDelegation with signature := sig }
                (Except.ok
                  { success := true
                    delegationId := some (getDelegationHashOffchain signedDelegation)
                    delegation := some signedDelegation
                    chainId := some chainId
                    isSimulated := some false
                    walletType := some WalletType.eoa
                    userMessage := some "Real delegation created successfully!" },
                 [StageEv.builderCall, StageEv.realSignAttempt])
            | SignOutcome.err msg =>
                (Except.error msg, [StageEv.builderCall, StageEv.realSignAttempt])
            | SignOutcome.timeout =>
                (Except.error "Signing timed out after 30 seconds",
                 [StageEv.builderCall, StageEv.realSignAttempt])

/-- `DelegationService.createSignedDelegation`: chain-support check first,
then the wallet-capability probes, then the real flow; any exception from
the real flow is caught and absorbed by one simulation fallback. -/
def createSignedDelegation (env : ChainEnv) (wc : WalletClient)
    (userAddress : String) (chainId : Nat) (saltRand mockSaltRand : String) :
    DelegationResult × List StageEv :=
  if !isChainSupported chainId then
    (withUserMessage
      (createSimulatedDelegation userAddress chainId "unsupported_chain" mockSaltRand)
      (getSimulationMessage false userAddress),
     [StageEv.simFallback])
  else
    let isSCW := isSmartContractWallet env
    let canSign := canSignDelegations wc env
    if isSCW || !canSign then
      (withUserMessage
        (createSimulatedDelegation userAddress chainId
          (if isSCW then "smart_contract_wallet" else "signing_unsupported") mockSaltRand)
        (getSimulationMessage isSCW userAddress),
       [StageEv.simFallback])
    else
      match createRealDelegation env wc userAddress chainId saltRand mockSaltRand with
      | (Except.ok r, evs) => (r, evs)
      | (Except.error _, evs) =>
          (withUserMessage
            (createSimulatedDelegation userAddress chainId "error_fallback" mockSaltRand)
            "An unexpected error occurred. Using simulation mode.",
           evs ++ [StageEv.simFallback])

/-- `DelegationService.submitDelegation` (main path; nothing inside its
`try` can throw in the model): always succeeds, synthesizes the mock
transaction reference from the random source, recomputes the identifier
from the signed delegation, and sets `isSimulated` from chain support
alone.  Note that it sets no `walletType` and no `userMessage`. -/
def submitDelegation (signedDelegation : Delegation) (wc : WalletClient)
    (userAddress : String) (chainId : Nat) (txRand : String) : DelegationResult :=
  let mockTransactionHash := mkMockTxHash txRand
  let delegationId := getDelegationHashOffchain signedDelegation
  { success := true
    transactionHash := some mockTransactionHash
    delegationId := some delegationId
    delegation := some signedDelegation
    chainId := some chainId
    isSimulated := some (!isChainSupported chainId) }

/-- Lifecycle status of a stored automation. -/
inductive AStatus where
  | active
  | pending
  | completed
  | failed
deriving DecidableEq, Repr

/-- A stored automation record (`Automation` in `automation.ts`), reduced
to the fields the delegation lifecycle reads or writes.  `provenance` is a
ghost field recording, at activation time, the `DelegationResult` whose
payload activated the automation; the running code does not store it, the
model uses it to state the activation invariant. -/
structure Automation where
  id : String
  userAddress : String
  status : AStatus
  description : String := ""
  delegationId : Option DelegationId := none
  transactionHash : Option String := none
  chainId : Option Nat := none
  isSimulated : Option Bool := none
  provenance : Option DelegationResult := none
deriving DecidableEq, Repr

/-- `DelegationService.setupAutomationDelegation`: input validation, then
Signer (`createSignedDelegation`), then Submitter (`submitDelegation`).
The service never touches the automation store (it has no reference to
it); the returned trace records every stage invoked. -/
def setupAutomationDelegation (env : ChainEnv) (automation : Automation)
    (walletClient : Option WalletClient) (userAddress : String) (chainId : Nat)
    (saltRand mockSaltRand txRand : String) :
    DelegationResult × List StageEv :=
  match walletClient with
  | none =>
      ({ success := false
         error := some "User address or wallet client is missing"
         chainId := some chainId }, [])
  | some wc =>
      if userAddress = "" then
        ({ success := false
           error := some "User address or wallet client is missing"
           chainId := some chainId }, [])
      else
        let signed := createSignedDelegation env wc userAddress chainId saltRand mockSaltRand
        let signingResult := signed.1
        let evs := StageEv.signerCall :: signed.2
        if !signingResult.success then (signingResult, evs)
        else
          match signingResult.delegation with
          | none =>
              ({ success := false
                 error := some "No delegation created"
                 chainId := some chainId }, evs)
          | some d =>
              (submitDelegation d wc userAddress chainId txRand,
               evs ++ [StageEv.submitCall])

/-- `automationStorage.update` (`automation.ts`): find the first automation
with the given id, mutate it in place by the partial-merge function `u`
(`Object.assign` with a `Partial<Automation>`), and return it; when no
automation matches, return `null` and leave the list untouched. -/
def automationStorageUpdate (autos : List Automation) (id : String)
    (u : Automation → Automation) : Option Automation × List Automation :=
  match autos with
  | [] => (none, [])
  | a :: rest =>
      if a.id = id then (some (u a), u a :: rest)
      else
        let r := automationStorageUpdate rest id u
        (r.1, a :: r.2)

/-- `automationStorage.updateStatus` (`automation.ts`): the status-only
variant of the partial update. -/
def automationStorageUpdateStatus (autos : List Automation) (id : String)
    (status : AStatus) : Option Automation × List Automation :=
  automationStorageUpdate autos id (fun a => { a with status := status })

/-- `automationStorage.create` as invoked by the AI-parse route
(`api/ai/parse/route.ts`): every creation site passes `status: 'pending'`;
the store appends the new record. -/
def automationStorageCreatePending (autos : List Automation)
    (id userAddress description : String) : List Automation :=
  autos ++ [{ id := id, userAddress := userAddress,
              status := AStatus.pending, description := description }]

/-- The confirm endpoint (`api/automations/confirm/route.ts` POST) as the
client drives it (`ChatBox.handleConfirmAutomation` posts
`signedDelegation := result.delegation`, `transactionHash`, `chainId` and
`isSimulated` straight from the pipeline result `r`): reject when the id,
the user address, or the signed delegation is missing; reject when no
automation with that id belongs to the user; otherwise update the record
to status `active` with the payload fields.  The route copies
`signedDelegation.delegationId`, which is undefined on a raw delegation
record, so the stored `delegationId` is `none`.  The ghost `provenance`
field records the result that drove the activation. -/
def confirmPOST (autos : List Automation) (automationId userAddress : String)
    (r : DelegationResult) : List Automation :=
  if automationId = "" ∨ userAddress = "" then autos
  else
    match r.delegation with
    | none => autos
    | some _ =>
        let userAutomations := autos.filter (fun a => a.userAddress == userAddress)
        match userAutomations.find? (fun a => a.id == automationId) with
        | none => autos
        | some _ =>
            (automationStorageUpdate autos automationId (fun a =>
              { a with
                  status := AStatus.active
                  delegationId := none
                  transactionHash := r.transactionHash
                  chainId := r.chainId
                  isSimulated := r.isSimulated
                  provenance := some r })).2

/-- A result actually produced by the client-side pipeline
(`setupAutomationDelegation` on some inputs); the confirm endpoint only
ever receives payloads built from such results. -/
def IsPipelineResult (r : DelegationResult) : Prop :=
  ∃ env automation walletClient userAddress chainId saltRand mockSaltRand txRand,
    r = (setupAutomationDelegation env automation walletClient userAddress chainId
          saltRand mockSaltRand txRand).1

/-- Reachable states of the server-side automation store: the empty initial
store, creations by the parse route (always status `pending`), and
confirmations by the confirm route fed with a pipeline result. -/
inductive Reachable : List Automation → Prop where
  | empty : Reachable []
  | createPending (autos : List Automation) (id userAddress description : String) :
      Reachable autos →
      Reachable (automationStorageCreatePending autos id userAddress description)
  | confirm (autos : List Automation) (automationId userAddress : String)
      (r : DelegationResult) :
      Reachable autos → IsPipelineResult r →
      Reachable (confirmPOST autos automationId userAddress r)

/-- The activation invariant: every automation whose status is `active`
carries the provenance of a `DelegationResult` with `success = true`. -/
def ActiveInv (autos : List Automation) : Prop :=
  ∀ a ∈ autos, a.status = AStatus.active →
    ∃ r, a.provenance = some r ∧ r.success = true

@[simp]
theorem withUserMessage_success (r : DelegationResult) (m : String) :
    (withUserMessage r m).success = r.success := rfl

@[simp]
theorem withUserMessage_delegation (r : DelegationResult) (m : String) :
    (withUserMessage r m).delegation = r.delegation := rfl

@[simp]
theorem withUserMessage_isSimulated (r : DelegationResult) (m : String) :
    (withUserMessage r m).isSimulated = r.isSimulated := rfl

@[simp]
theorem createSimulatedDelegation_success (u : String) (c : Nat) (reason s : String) :
    (createSimulatedDelegation u c reason s).success = true := rfl

@[simp]
theorem createSimulatedDelegation_isSimulated (u : String) (c : Nat) (reason s : String) :
    (createSimulatedDelegation u c reason s).isSimulated = some true := rfl

@[simp]
theorem createSimulatedDelegation_delegation_isSome (u : String) (c : Nat) (reason s : String) :
    (createSimulatedDelegation u c reason s).delegation.isSome = true := rfl


theorem rootAuthority_ne_empty : rootAuthority ≠ "" := by decide

/-- Every non-throwing outcome of the real-delegation flow is a success
record that carries a delegation. -/
theorem createRealDelegation_ok (env : ChainEnv) (wc : WalletClient)
    (u : String) (c : Nat) (rs rm : String) (r : DelegationResult)
    (evs : List StageEv)
    (h : createRealDelegation env wc u c rs rm = (Except.ok r, evs)) :
    r.success = true ∧ r.delegation.isSome = true := by
  cases hdm : env.delegationManager with
  | none =>
      rw [createRealDelegation, hdm] at h
      simp only [Prod.mk.injEq, Except.ok.injEq] at h
      obtain ⟨rfl, -⟩ := h
      simp
  | some dm =>
      rw [createRealDelegation, hdm] at h
      by_cases hu : u = ""
      · simp only [createDelegation, hu] at h
        rw [if_pos (by simp)] at h
        simp only [Prod.mk.injEq, Except.ok.injEq] at h
        obtain ⟨rfl, -⟩ := h
        simp
      · simp only [createDelegation] at h
        rw [if_neg (by simp [hu, rootAuthority_ne_empty])] at h
        cases hacct : wc.account with
        | none =>
            rw [hacct] at h
            simp only [Prod.mk.injEq] at h
            exact absurd h.1 (by simp)
        | some acct =>
            rw [hacct] at h
            cases hsig : env.signOutcome with
            | ok sig =>
                rw [hsig] at h
                simp only [Prod.mk.injEq, Except.ok.injEq] at h
                obtain ⟨rfl, -⟩ := h
                simp
            | err msg =>
                rw [hsig] at h
                simp only [Prod.mk.injEq] at h
                exact absurd h.1 (by simp)
            | timeout =>
                rw [hsig] at h
                simp only [Prod.mk.injEq] at h
                exact absurd h.1 (by simp)

/-- The Signer stage always reports success and returns a delegation. -/
theorem createSignedDelegation_spec (env : ChainEnv) (wc : WalletClient)
    (u : String) (c : Nat) (rs rm : String) :
    (createSignedDelegation env wc u c rs rm).1.success = true ∧
      (createSignedDelegation env wc u c rs rm).1.delegation.isSome = true := by
  by_cases hsup : isChainSupported c
  · by_cases hcond : (isSmartContractWallet env || !canSignDelegations wc env) = true
    · rw [createSignedDelegation, if_neg (by simp [hsup]), if_pos hcond]
      simp
    · rcases hreal : createRealDelegation env wc u c rs rm with ⟨res, evs⟩
      cases res with
      | ok r =>
          rw [createSignedDelegation, if_neg (by simp [hsup]), if_neg hcond, hreal]
          exact createRealDelegation_ok env wc u c rs rm r evs hreal
      | error e =>
          rw [createSignedDelegation, if_neg (by simp [hsup]), if_neg hcond, hreal]
          simp
  · rw [createSignedDelegation, if_pos (by simp [hsup])]
    simp

/-- With valid inputs the Orchestrator always reaches the Submitter: the
final result is exactly the Submitter's result on the Signer's delegation,
and the trace is Signer events followed by the submit call. -/
theorem setup_valid_eq (env : ChainEnv) (automation : Automation)
    (wc : WalletClient) (u : String) (c : Nat) (rs rm rt : String)
    (hu : u ≠ "") :
    ∃ d, (createSignedDelegation env wc u c rs rm).1.delegation = some d ∧
      (setupAutomationDelegation env automation (some wc) u c rs rm rt).1 =
        submitDelegation d wc u c rt ∧
      (setupAutomationDelegation env automation (some wc) u c rs rm rt).2 =
        StageEv.signerCall :: (createSignedDelegation env wc u c rs rm).2
          ++ [StageEv.submitCall] := by
  obtain ⟨hsucc, hsome⟩ := createSignedDelegation_spec env wc u c rs rm
  obtain ⟨d, hd⟩ := Option.isSome_iff_exists.mp hsome
  refine ⟨d, hd, ?_, ?_⟩ <;>
    simp only [setupAutomationDelegation, if_neg hu, hsucc, hd,
      Bool.not_true, Bool.false_eq_true, if_false]

/-- A pipeline result that carries a delegation is a success result: every
failure path of the Orchestrator leaves the `delegation` field unset. -/
theorem pipeline_delegation_success (r : DelegationResult)
    (h : IsPipelineResult r) (hd : r.delegation.isSome = true) :
    r.success = true := by
  obtain ⟨env, automation, walletClient, u, c, rs, rm, rt, rfl⟩ := h
  cases walletClient with
  | none => simp [setupAutomationDelegation] at hd
  | some wc =>
      by_cases hu : u = ""
      · simp [setupAutomationDelegation, hu] at hd
      · obtain ⟨d, -, heq, -⟩ := setup_valid_eq env automation wc u c rs rm rt hu
        rw [heq]
        rfl

/-- Members of the store after `automationStorageUpdate` are either old
members or the image of an old member under the merge function. -/
theorem automationStorageUpdate_mem (autos : List Automation) (id : String)
    (u : Automation → Automation) (b : Automation)
    (hb : b ∈ (automationStorageUpdate autos id u).2) :
    b ∈ autos ∨ ∃ a ∈ autos, b = u a := by
  induction autos with
  | nil => simp [automationStorageUpdate] at hb
  | cons a rest ih =>
      rw [automationStorageUpdate] at hb
      by_cases ha : a.id = id
      · rw [if_pos ha] at hb
        rcases List.mem_cons.mp hb with h1 | h1
        · exact Or.inr ⟨a, List.mem_cons_self a rest, h1⟩
        · exact Or.inl (List.mem_cons_of_mem a h1)
      · rw [if_neg ha] at hb
        rcases List.mem_cons.mp hb with h1 | h1
        · exact Or.inl (h1 ▸ List.mem_cons_self a rest)
        · rcases ih h1 with h2 | ⟨a2, ha2, hb2⟩
          · exact Or.inl (List.mem_cons_of_mem a h2)
          · exact Or.inr ⟨a2, List.mem_cons_of_mem a ha2, hb2⟩

/-- One confirm-route request preserves the activation invariant when fed
a pipeline result. -/
theorem confirmPOST_preserves_inv (autos : List Automation)
    (automationId userAddress : String) (r : DelegationResult)
    (hr : IsPipelineResult r) (hinv : ActiveInv autos) :
    ActiveInv (confirmPOST autos automationId userAddress r) := by
  rw [confirmPOST]
  split
  · exact hinv
  · split
    · exact hinv
    · rename_i d hd
      dsimp only
      split
      · exact hinv
      · intro b hb hbact
        rcases automationStorageUpdate_mem autos automationId _ b hb with h1 | ⟨a, -, rfl⟩
        · exact hinv b h1 hbact
        · refine ⟨r, rfl, ?_⟩
          exact pipeline_delegation_success r hr (by rw [hd]; rfl)

/-- C1: for every chain id absent from the supported-chain table, every
non-empty user address and every wallet handle, `setupAutomationDelegation`
returns `success = true` and `isSimulated = true`, with a delegation
identifier and a transaction reference present. -/
theorem unsupported_chain_always_simulated_success (env : ChainEnv)
    (automation : Automation) (wc : WalletClient) (u : String) (c : Nat)
    (rs rm rt : String) (hc : isChainSupported c = false) (hu : u ≠ "") :
    (setupAutomationDelegation env automation (some wc) u c rs rm rt).1.success = true ∧
    (setupAutomationDelegation env automation (some wc) u c rs rm rt).1.isSimulated = some true ∧
    (setupAutomationDelegation env automation (some wc) u c rs rm rt).1.delegationId.isSome = true ∧
    (setupAutomationDelegation env automation (some wc) u c rs rm rt).1.transactionHash.isSome = true := by
  obtain ⟨d, -, heq, -⟩ := setup_valid_eq env automation wc u c rs rm rt hu
  rw [heq]
  refine ⟨rfl, ?_, rfl, rfl⟩
  simp [submitDelegation, hc]

/-- Witness for C1 at the unsupported chain id 10143. -/
theorem unsupported_chain_always_simulated_success_witness :
    isChainSupported 10143 = false ∧
    (setupAutomationDelegation ⟨none, false, true, some "0xDM", SignOutcome.ok "0xS"⟩
        ⟨"auto_1", "0xA11CE", AStatus.pending, "", none, none, none, none, none⟩
        (some ⟨some "0xA11CE"⟩) "0xA11CE" 10143 "0.ab" "0.cd" "0.ef").1.success = true ∧
    (setupAutomationDelegation ⟨none, false, true, some "0xDM", SignOutcome.ok "0xS"⟩
        ⟨"auto_1", "0xA11CE", AStatus.pending, "", none, none, none, none, none⟩
        (some ⟨some "0xA11CE"⟩) "0xA11CE" 10143 "0.ab" "0.cd" "0.ef").1.isSimulated = some true :=
  ⟨by decide,
   (unsupported_chain_always_simulated_success _ _ _ _ _ _ _ _ (by decide) (by decide)).1,
   (unsupported_chain_always_simulated_success _ _ _ _ _ _ _ _ (by decide) (by decide)).2.1⟩

/-- C2 counterexample: a wallet classified smart-contract (non-empty
bytecode `0x6080`) on the supported chain id 1 — the result returned by
`setupAutomationDelegation` has `isSimulated = some false`, because the
Submitter recomputes the flag from chain support alone. -/
theorem scw_supported_chain_final_not_simulated :
    isSmartContractWallet ⟨some "0x6080", false, true, some "0xDM", SignOutcome.ok "0xS"⟩ = true ∧
    isChainSupported 1 = true ∧
    (setupAutomationDelegation ⟨some "0x6080", false, true, some "0xDM", SignOutcome.ok "0xS"⟩
        ⟨"auto_1", "0xA11CE", AStatus.pending, "", none, none, none, none, none⟩
        (some ⟨some "0xA11CE"⟩) "0xA11CE" 1 "0.ab" "0.cd" "0.ef").1.isSimulated = some false := by
  refine ⟨by decide, by decide, ?_⟩
  decide

/-- C2 amended: for every wallet classified smart-contract, the Signer
stage (`createSignedDelegation`) returns a simulated result regardless of
chain support; the final result of `setupAutomationDelegation` reflects
chain support only, so on a supported chain it is not marked simulated. -/
theorem scw_signer_always_simulated (env : ChainEnv) (wc : WalletClient)
    (u : String) (c : Nat) (rs rm : String)
    (hscw : isSmartContractWallet env = true) :
    (createSignedDelegation env wc u c rs rm).1.isSimulated = some true := by
  by_cases hsup : isChainSupported c
  · rw [createSignedDelegation, if_neg (by simp [hsup]), if_pos (by simp [hscw])]
    simp
  · rw [createSignedDelegation, if_pos (by simp [hsup])]
    simp

/-- Witness for the amended C2 at a concrete smart-contract wallet on the
supported chain id 1. -/
theorem scw_signer_always_simulated_witness :
    isSmartContractWallet ⟨some "0x6080", false, true, some "0xDM", SignOutcome.ok "0xS"⟩ = true ∧
    (createSignedDelegation ⟨some "0x6080", false, true, some "0xDM", SignOutcome.ok "0xS"⟩
        ⟨some "0xA11CE"⟩ "0xA11CE" 1 "0.ab" "0.cd").1.isSimulated = some true :=
  ⟨by decide, scw_signer_always_simulated _ _ _ _ _ _ (by decide)⟩

/-- C3: when the capable-EOA path reaches the real signing attempt and that
attempt throws or times out, the final result of
`setupAutomationDelegation` still has `success = true`; the trace shows
exactly one real signing attempt and exactly one fallback to simulation
(never a retry), and the Signer's result is the simulated fallback. -/
theorem signing_fault_absorbed (env : ChainEnv) (automation : Automation)
    (wc : WalletClient) (u : String) (c : Nat) (rs rm rt : String)
    (hu : u ≠ "")
    (hsup : isChainSupported c = true)
    (hscw : isSmartContractWallet env = false)
    (hcan : canSignDelegations wc env = true)
    (hdm : env.delegationManager.isSome = true)
    (hfail : env.signOutcome = SignOutcome.timeout ∨
      ∃ m, env.signOutcome = SignOutcome.err m) :
    (setupAutomationDelegation env automation (some wc) u c rs rm rt).1.success = true ∧
    (setupAutomationDelegation env automation (some wc) u c rs rm rt).2.count
      StageEv.realSignAttempt = 1 ∧
    (setupAutomationDelegation env automation (some wc) u c rs rm rt).2.count
      StageEv.simFallback = 1 ∧
    (createSignedDelegation env wc u c rs rm).1.isSimulated = some true := by
  obtain ⟨dm, hdm2⟩ := Option.isSome_iff_exists.mp hdm
  obtain ⟨acct, hacct⟩ : ∃ a, wc.account = some a := by
    cases h : wc.account with
    | none => rw [canSignDelegations, h] at hcan; exact absurd hcan (by simp)
    | some a => exact ⟨a, rfl⟩
  have hreal : ∃ msg, createRealDelegation env wc u c rs rm =
      (Except.error msg, [StageEv.builderCall, StageEv.realSignAttempt]) := by
    refine ⟨match env.signOutcome with
      | SignOutcome.timeout => "Signing timed out after 30 seconds"
      | SignOutcome.err m => m
      | SignOutcome.ok _ => "", ?_⟩
    rw [createRealDelegation, hdm2]
    simp only [createDelegation]
    rw [if_neg (by simp [hu, rootAuthority_ne_empty])]
    rw [hacct]
    rcases hfail with ht | ⟨m, hm⟩
    · rw [ht]
    · rw [hm]
  obtain ⟨msg, hmsg⟩ := hreal
  have hsigned : createSignedDelegation env wc u c rs rm =
      (withUserMessage (createSimulatedDelegation u c "error_fallback" rm)
        "An unexpected error occurred. Using simulation mode.",
       [StageEv.builderCall, StageEv.realSignAttempt, StageEv.simFallback]) := by
    rw [createSignedDelegation, if_neg (by simp [hsup]),
      if_neg (by simp [hscw, hcan]), hmsg]
    rfl
  obtain ⟨d, -, heq, htr⟩ := setup_valid_eq env automation wc u c rs rm rt hu
  refine ⟨?_, ?_, ?_, ?_⟩
  · rw [heq]; rfl
  · rw [htr, hsigned]; dsimp only; decide
  · rw [htr, hsigned]; dsimp only; decide
  · rw [hsigned]; simp

/-- Witness for C3 at a concrete timed-out signing attempt on the
supported chain id 1. -/
theorem signing_fault_absorbed_witness :
    (setupAutomationDelegation ⟨none, false, true, some "0xDM", SignOutcome.timeout⟩
        ⟨"auto_1", "0xA11CE", AStatus.pending, "", none, none, none, none, none⟩
        (some ⟨some "0xA11CE"⟩) "0xA11CE" 1 "0.ab" "0.cd" "0.ef").1.success = true ∧
    (setupAutomationDelegation ⟨none, false, true, some "0xDM", SignOutcome.timeout⟩
        ⟨"auto_1", "0xA11CE", AStatus.pending, "", none, none, none, none, none⟩
        (some ⟨some "0xA11CE"⟩) "0xA11CE" 1 "0.ab" "0.cd" "0.ef").2.count
      StageEv.realSignAttempt = 1 :=
  ⟨(signing_fault_absorbed _ _ _ _ _ _ _ _ (by decide) (by decide) (by decide)
      (by decide) (by decide) (Or.inl rfl)).1,
   (signing_fault_absorbed _ _ _ _ _ _ _ _ (by decide) (by decide) (by decide)
      (by decide) (by decide) (Or.inl rfl)).2.1⟩

/-- C4: in every reachable state of the automation store, every automation
whose status is `active` carries the provenance of a `DelegationResult`
with `success = true`; no operation ever persists a `success = false`
result as status `active`. -/
theorem reachable_active_implies_success (autos : List Automation)
    (h : Reachable autos) : ActiveInv autos := by
  induction h with
  | empty =>
      intro a ha
      simp at ha
  | createPending autos id uaddr desc hr ih =>
      intro a ha hact
      rw [automationStorageCreatePending] at ha
      rcases List.mem_append.mp ha with h1 | h1
      · exact ih a h1 hact
      · rcases List.mem_singleton.mp h1 with rfl
        exact absurd hact (by simp)
  | confirm autos aid uaddr r hr hpipe ih =>
      exact confirmPOST_preserves_inv autos aid uaddr r hpipe ih

/-- Witness for C4: a concrete reachable store with one activated
automation (created pending, then confirmed from a concrete pipeline
result on the unsupported chain 10143). -/
theorem reachable_active_implies_success_witness :
    ActiveInv (confirmPOST
      (automationStorageCreatePending [] "auto_1" "0xA11CE" "weekly payment")
      "auto_1" "0xA11CE"
      (setupAutomationDelegation ⟨none, false, true, some "0xDM", SignOutcome.ok "0xS"⟩
        ⟨"auto_1", "0xA11CE", AStatus.pending, "", none, none, none, none, none⟩
        (some ⟨some "0xA11CE"⟩) "0xA11CE" 10143 "0.ab" "0.cd" "0.ef").1) :=
  reachable_active_implies_success _
    (Reachable.confirm _ _ _ _
      (Reachable.createPending _ _ _ _ Reachable.empty)
      ⟨⟨none, false, true, some "0xDM", SignOutcome.ok "0xS"⟩,
        ⟨"auto_1", "0xA11CE", AStatus.pending, "", none, none, none, none, none⟩,
        some ⟨some "0xA11CE"⟩, "0xA11CE", 10143, "0.ab", "0.cd", "0.ef", rfl⟩)

/-- C5: when the user address or the wallet handle is missing,
`setupAutomationDelegation` returns `success = false` immediately and the
trace is empty — no Builder, Signer, or Submitter invocation and no store
mutation of any kind. -/
theorem missing_inputs_fail_fast (env : ChainEnv) (automation : Automation)
    (walletClient : Option WalletClient) (u : String) (c : Nat)
    (rs rm rt : String) (h : u = "" ∨ walletClient = none) :
    (setupAutomationDelegation env automation walletClient u c rs rm rt).1.success = false ∧
    (setupAutomationDelegation env automation walletClient u c rs rm rt).2 = [] := by
  cases walletClient with
  | none => exact ⟨rfl, rfl⟩
  | some wc =>
      rcases h with hu | hwc
      · constructor <;> simp [setupAutomationDelegation, hu]
      · exact absurd hwc (by simp)

/-- Witness for C5 at a missing (empty) user address. -/
theorem missing_inputs_fail_fast_witness :
    (setupAutomationDelegation ⟨none, false, true, some "0xDM", SignOutcome.ok "0xS"⟩
        ⟨"auto_1", "0xA11CE", AStatus.pending, "", none, none, none, none, none⟩
        (some ⟨some "0xA11CE"⟩) "" 1 "0.ab" "0.cd" "0.ef").1.success = false ∧
    (setupAutomationDelegation ⟨none, false, true, some "0xDM", SignOutcome.ok "0xS"⟩
        ⟨"auto_1", "0xA11CE", AStatus.pending, "", none, none, none, none, none⟩
        (some ⟨some "0xA11CE"⟩) "" 1 "0.ab" "0.cd" "0.ef").2 = [] :=
  missing_inputs_fail_fast _ _ _ _ _ _ _ _ (Or.inl rfl)

/-- C6: the content-hash identifier is a pure function of the delegation's
fields — structurally equal delegations hash identically — and two
delegations that differ only in their salt hash differently. -/
theorem hash_deterministic_and_salt_discriminating (d e : Delegation)
    (s : String) (hde : d = e) (hs : s ≠ d.salt) :
    getDelegationHashOffchain d = getDelegationHashOffchain e ∧
    getDelegationHashOffchain d ≠ getDelegationHashOffchain { d with salt := s } := by
  subst hde
  refine ⟨rfl, fun hcontra => ?_⟩
  have h3 := congrArg (fun l => l[3]?) hcontra
  simp [getDelegationHashOffchain] at h3
  exact hs h3.symm

/-- Witness for C6 at two concrete delegations differing only in salt. -/
theorem hash_deterministic_and_salt_discriminating_witness :
    getDelegationHashOffchain ⟨"0xA", "0xA", rootAuthority, [], "0x01", "0xS"⟩ =
      getDelegationHashOffchain ⟨"0xA", "0xA", rootAuthority, [], "0x01", "0xS"⟩ ∧
    getDelegationHashOffchain ⟨"0xA", "0xA", rootAuthority, [], "0x01", "0xS"⟩ ≠
      getDelegationHashOffchain
        { (⟨"0xA", "0xA", rootAuthority, [], "0x01", "0xS"⟩ : Delegation) with salt := "0x02" } :=
  hash_deterministic_and_salt_discriminating _ _ _ rfl (by decide)

/-- C7: every simulated delegation carries the fixed placeholder signature
(`0x` followed by 130 zero characters) and its identifier is computed by
the same content-hash function `getDelegationHashOffchain` that real
delegations use. -/
theorem simulated_placeholder_and_uniform_hash (u : String) (c : Nat)
    (reason saltR : String) :
    ∃ d, (createSimulatedDelegation u c reason saltR).delegation = some d ∧
      d.signature = "0x" ++ String.mk (List.replicate 130 '0') ∧
      (createSimulatedDelegation u c reason saltR).delegationId =
        some (getDelegationHashOffchain d) :=
  ⟨_, rfl, rfl, rfl⟩

set_option maxRecDepth 4096 in
/-- C8 counterexample: with the JavaScript-feasible random source
`0.1999999999999a` (a double's hex expansion never reaches 64 fractional
digits), the synthesized transaction reference is `0x1999999999999a` — 16
characters, not a 32-byte (66-character) hash. -/
theorem submit_reference_not_32_bytes :
    (submitDelegation ⟨"0xA", "0xA", rootAuthority, [], "0x01", "0xS"⟩ ⟨some "0xA"⟩
        "0xA" 1 "0.1999999999999a").transactionHash = some "0x1999999999999a" ∧
    ("0x1999999999999a" : String).length = 16 ∧
    ¬ ("0x1999999999999a" : String).length = 66 := by
  decide

/-- C8 amended: every result of `submitDelegation` is successful and
carries the content-hash identifier of the submitted delegation together
with a synthesized transaction reference — `0x` followed by at most 64 hex
digits of the random fraction, unpadded (so shorter than 32 bytes whenever
the random source provides fewer than 64 digits); the stage is a pure
function of its inputs and contacts no network. -/
theorem submit_always_id_and_reference (d : Delegation) (wc : WalletClient)
    (u : String) (c : Nat) (rt : String) :
    (submitDelegation d wc u c rt).success = true ∧
    (submitDelegation d wc u c rt).delegationId = some (getDelegationHashOffchain d) ∧
    (submitDelegation d wc u c rt).transactionHash = some ("0x" ++ (rt.drop 2).take 64) :=
  ⟨rfl, rfl, rfl⟩

/-- C9: updating a nonexistent identifier returns `none` and leaves the
store exactly as it was, for every merge function. -/
theorem update_missing_id_noop (autos : List Automation) (id : String)
    (u : Automation → Automation) (h : ∀ a ∈ autos, a.id ≠ id) :
    automationStorageUpdate autos id u = (none, autos) := by
  induction autos with
  | nil => rfl
  | cons a rest ih =>
      have h1 : a.id ≠ id := h a (List.mem_cons_self a rest)
      have h2 := ih (fun b hb => h b (List.mem_cons_of_mem a hb))
      rw [automationStorageUpdate, if_neg h1]
      dsimp only
      rw [h2]

/-- Witness for C9 at a concrete one-element store and a missing id. -/
theorem update_missing_id_noop_witness :
    automationStorageUpdate
      [⟨"auto_1", "0xA11CE", AStatus.pending, "", none, none, none, none, none⟩]
      "auto_missing" (fun a => { a with status := AStatus.completed }) =
    (none, [⟨"auto_1", "0xA11CE", AStatus.pending, "", none, none, none, none, none⟩]) :=
  update_missing_id_noop _ _ _ (by decide)

/-- C10: every result of `submitDelegation` is successful with
`isSimulated` equal to the negation of chain support and no `walletType`
or `userMessage` tag; consequently, for valid inputs the final result of
`setupAutomationDelegation` has `isSimulated` determined by chain support
alone. -/
theorem submit_and_setup_reflect_chain_support (d : Delegation)
    (env : ChainEnv) (automation : Automation) (wc : WalletClient)
    (u : String) (c : Nat) (rs rm rt : String) (hu : u ≠ "") :
    (submitDelegation d wc u c rt).success = true ∧
    (submitDelegation d wc u c rt).isSimulated = some (!isChainSupported c) ∧
    (submitDelegation d wc u c rt).walletType = none ∧
    (submitDelegation d wc u c rt).userMessage = none ∧
    (setupAutomationDelegation env automation (some wc) u c rs rm rt).1.isSimulated =
      some (!isChainSupported c) := by
  refine ⟨rfl, rfl, rfl, rfl, ?_⟩
  obtain ⟨d2, -, heq, -⟩ := setup_valid_eq env automation wc u c rs rm rt hu
  rw [heq]
  rfl

/-- Witness for C10 on the supported chain id 1: isSimulated is
`some false` in the final result even though the Signer simulated. -/
theorem submit_and_setup_reflect_chain_support_witness :
    (submitDelegation ⟨"0xA", "0xA", rootAuthority, [], "0x01", "0xS"⟩ ⟨some "0xA11CE"⟩
        "0xA11CE" 1 "0.ef").isSimulated = some (!isChainSupported 1) ∧
    (setupAutomationDelegation ⟨some "0x6080", false, true, some "0xDM", SignOutcome.ok "0xS"⟩
        ⟨"auto_1", "0xA11CE", AStatus.pending, "", none, none, none, none, none⟩
        (some ⟨some "0xA11CE"⟩) "0xA11CE" 1 "0.ab" "0.cd" "0.ef").1.isSimulated =
      some (!isChainSupported 1) :=
  ⟨(submit_and_setup_reflect_chain_support
      ⟨"0xA", "0xA", rootAuthority, [], "0x01", "0xS"⟩
      ⟨some "0x6080", false, true, some "0xDM", SignOutcome.ok "0xS"⟩
      ⟨"auto_1", "0xA11CE", AStatus.pending, "", none, none, none, none, none⟩
      ⟨some "0xA11CE"⟩ "0xA11CE" 1 "0.ab" "0.cd" "0.ef" (by decide)).2.1,
   (submit_and_setup_reflect_chain_support
      ⟨"0xA", "0xA", rootAuthority, [], "0x01", "0xS"⟩
      ⟨some "0x6080", false, true, some "0xDM", SignOutcome.ok "0xS"⟩
      ⟨"auto_1", "0xA11CE", AStatus.pending, "", none, none, none, none, none⟩
      ⟨some "0xA11CE"⟩ "0xA11CE" 1 "0.ab" "0.cd" "0.ef" (by decide)).2.2.2.2⟩
